import Mathlib

/-!
Verification development for the subtitle-translator core
(`src/utils/subtitle.ts`, `src/pages/api/aioptimize.ts`,
`src/pages/api/upload.ts`, `src/pages/api/stream-download.ts`).

The TypeScript sources are shallowly embedded: pure functions become Lean
functions over `String` / `List Char` / `Nat`; the effectful boundaries
(the `subsrt` grammar, the Gemini call, JSON body parsing, the response
stream's destination) are passed in as explicit values, so every embedded
function is total and executable.
-/

/-! ## ContentSanitizer (`sanitizeContent` in `src/utils/subtitle.ts`)

The first replace is the global regex `/<\/?[^>]+(>|$)/g`.  Because `/` is
itself a character not equal to `>`, the pattern matches exactly: a `<`,
followed by a maximal non-empty run of non-`>` characters, followed by `>`
when one is present (consumed) or the end of the string.  A `<` that is
immediately followed by `>` or by the end of the input matches nothing and
is left in place (it is removed by the later character replaces).
`stripTags` is that global replace, scanning left to right. -/

def stripTagsAux : Bool → List Char → List Char
  | true, [] => []
  | true, c :: cs => if c = '>' then stripTagsAux false cs else stripTagsAux true cs
  | false, [] => []
  | false, c :: cs =>
    if c = '<' then
      match cs with
      | [] => ['<']
      | c2 :: _ => if c2 = '>' then '<' :: stripTagsAux false cs else stripTagsAux true cs
    else c :: stripTagsAux false cs

/-- The global replace of `/<\/?[^>]+(>|$)/g` with the empty string, as a
left-to-right scan.  The Boolean state is `true` while inside a match (a `<`
followed by at least one non-`>` character has been consumed); the match ends
at a consumed `>` or at the end of the input. -/
def stripTags (l : List Char) : List Char := stripTagsAux false l

/-- Model of the JavaScript whitespace class used by `String.prototype.trim`. -/
def isJsSpace (c : Char) : Bool :=
  c = ' ' || c = '\t' || c = '\n' || c = '\r' || c = '\x0B' ||
  c = '\x0C' || c = ' ' || c = '﻿'

def trimLeft (l : List Char) : List Char :=
  l.dropWhile isJsSpace

def trimRight (l : List Char) : List Char :=
  (l.reverse.dropWhile isJsSpace).reverse

/-- Model of JavaScript `String.prototype.trim`. -/
def jsTrim (l : List Char) : List Char :=
  trimRight (trimLeft l)

/-- Embedding of `sanitizeContent`, on character lists:
regex tag removal, then `.replace(/</g, '')`, then `.replace(/>/g, '')`,
then `.trim()`. -/
def sanitizeList (l : List Char) : List Char :=
  jsTrim (((stripTags l).filter (fun c => c != '<')).filter (fun c => c != '>'))

/-- Embedding of `sanitizeContent` from `src/utils/subtitle.ts`.
Pure and total by construction. -/
def sanitizeContent (s : String) : String :=
  ⟨sanitizeList s.data⟩

/-! ## SRT timecode formatter (`formatTime` in `src/utils/subtitle.ts`) -/

/-- Model of JavaScript `String.prototype.padStart(n, c)`. -/
def padStart (s : String) (n : Nat) (c : Char) : String :=
  ⟨List.replicate (n - s.length) c ++ s.data⟩

/-- The local `pad` helper: `n.toString().padStart(2, '0')`. -/
def pad (n : Nat) : String :=
  padStart (Nat.repr n) 2 '0'

/-- Embedding of `formatTime` from `src/utils/subtitle.ts`. -/
def formatTime (ms : Nat) : String :=
  pad (ms / 3600000) ++ ":" ++ pad (ms % 3600000 / 60000) ++ ":" ++
    pad (ms % 60000 / 1000) ++ "," ++ padStart (Nat.repr (ms % 1000)) 3 '0'

/-! ## FormatParser (`parseSubtitleFile` in `src/utils/subtitle.ts`)

The `subsrt.parse` grammar call and the surrounding `try` are the effectful
boundary: the embedded parser receives the grammar's outcome as a value.
`Except.error m` models `subsrt.parse` (or `file.text()`) throwing with
message `m`; `Except.ok none` models a non-array return value;
`Except.ok (some entries)` models a returned array of entries. -/

/-- One entry as returned by the `subsrt` grammar.  Fields the entry may
lack are `Option`; `type` is the entry's `type` property (`none` when the
property is absent — the code treats an absent or empty `type` as falsy). -/
structure RawEntry where
  type : Option String
  start : Option Nat
  stop : Option Nat
  duration : Option Nat
  content : Option String
  text : Option String
deriving Repr, DecidableEq

/-- The `SubtitleCaption` interface of `src/utils/subtitle.ts`.  The
source field `end` is a Lean keyword and is embedded as `stop`. -/
structure SubtitleCaption where
  type : String
  index : Nat
  start : Nat
  stop : Nat
  duration : Nat
  content : String
  text : String
deriving Repr, DecidableEq

/-- JavaScript `a || b` for an optional string `a` (both `undefined` and
the empty string are falsy). -/
def jsOr (v : Option String) (d : String) : String :=
  match v with
  | none => d
  | some s => if s = "" then d else s

/-- JavaScript `a || 0` for an optional number `a` (`undefined` falls back
to `0`; a present `0` is falsy and also yields `0`). -/
def jsOrZero (v : Option Nat) : Nat := v.getD 0

/-- The filter `caption.type === 'caption' || !caption.type`. -/
def keepEntry (e : RawEntry) : Bool :=
  e.type == some "caption" || e.type == none || e.type == some ""

/-- The body of the `.map` in `parseSubtitleFile`: `idx` is the position in
the filtered list, the caption's `index` is `idx + 1`. -/
def mkCaption (idx : Nat) (e : RawEntry) : SubtitleCaption :=
  { type := "caption"
    index := idx + 1
    start := jsOrZero e.start
    stop := jsOrZero e.stop
    duration := jsOrZero e.duration
    content := sanitizeContent (jsOr e.content (jsOr e.text ""))
    text := sanitizeContent (jsOr e.text "") }

/-- Embedding of `parseSubtitleFile` from `src/utils/subtitle.ts`.  Any
failure is the wrapped message thrown by the enclosing `catch`. -/
def parseSubtitleFile (grammarResult : Except String (Option (List RawEntry))) :
    Except String (List SubtitleCaption) :=
  match grammarResult with
  | Except.error msg => Except.error ("Failed to parse subtitle file: " ++ msg)
  | Except.ok none =>
    Except.error "Failed to parse subtitle file: No valid subtitles found in file"
  | Except.ok (some entries) =>
    if entries.length = 0 then
      Except.error "Failed to parse subtitle file: No valid subtitles found in file"
    else
      Except.ok ((entries.filter keepEntry).enum.map (fun p => mkCaption p.1 p.2))

/-! ## Substring matching used to state the message-content claims -/

/-- `listPrefixOf n h` is true when `n` is an initial segment of `h`. -/
def listPrefixOf : List Char → List Char → Bool
  | [], _ => true
  | _ :: _, [] => false
  | a :: as, b :: bs => a = b && listPrefixOf as bs

/-- `containsSub n h` is true when `n` occurs as a contiguous substring of `h`. -/
def containsSub : List Char → List Char → Bool
  | n, [] => listPrefixOf n []
  | n, b :: bs => listPrefixOf n (b :: bs) || containsSub n bs

/-- Substring test on strings. -/
def strContains (needle haystack : String) : Bool :=
  containsSub needle.data haystack.data

/-! ## OptimizationOrchestrator (`src/pages/api/aioptimize.ts`)

The Gemini call, the markdown-fence stripping and `JSON.parse` are the
effectful boundary.  `optimizeSubtitles` receives the outcome of that
boundary: `Except.error m` models the provider call (or the JSON parse)
rejecting with message `m`; `ProviderValue.notArray` models a parsed value
that is not an array; `ProviderValue.arr items` models a parsed array whose
elements carry `index` and `content` properties of arbitrary JSON type. -/

/-- A JSON property value, as far as the validation loop inspects it:
a number, a string, or anything else (including an absent property). -/
inductive JField where
  | num (n : Int)
  | str (s : String)
  | other
deriving Repr, DecidableEq

/-- One element of the parsed provider array. -/
structure RawItem where
  index : JField
  content : JField
deriving Repr, DecidableEq

/-- The parsed provider response. -/
inductive ProviderValue where
  | notArray
  | arr (items : List RawItem)
deriving Repr, DecidableEq

/-- The `SubtitleItem` type of `src/types/gemini.ts`. -/
structure SubtitleItem where
  index : Int
  content : String
deriving Repr, DecidableEq

/-- The per-item check of the validation loop: `typeof item.index ===
'number' && typeof item.content === 'string'`. -/
def isValidItem (i : RawItem) : Bool :=
  (match i.index with | JField.num _ => true | _ => false) &&
  (match i.content with | JField.str _ => true | _ => false)

/-- The validation loop of `optimizeSubtitles`: fail at the first element
without a numeric `index` and string `content`, otherwise return all
elements. -/
def validateItems : List RawItem → Except String (List SubtitleItem)
  | [] => Except.ok []
  | i :: rest =>
    match i.index, i.content with
    | JField.num n, JField.str s =>
      (validateItems rest).map (fun items => ⟨n, s⟩ :: items)
    | _, _ => Except.error "Invalid item format in response"

/-- Embedding of `optimizeSubtitles` from `src/pages/api/aioptimize.ts`:
validate the provider outcome; any failure (including a rejected provider
call) is re-thrown wrapped as `Failed to optimize subtitles: ...`. -/
def optimizeSubtitles (callResult : Except String ProviderValue) :
    Except String (List SubtitleItem) :=
  let inner : Except String (List SubtitleItem) :=
    match callResult with
    | Except.error msg => Except.error msg
    | Except.ok ProviderValue.notArray => Except.error "Response is not an array"
    | Except.ok (ProviderValue.arr items) => validateItems items
  match inner with
  | Except.ok v => Except.ok v
  | Except.error msg => Except.error ("Failed to optimize subtitles: " ++ msg)

/-- The JSON body of a `Response` produced by the `POST` handler, together
with its HTTP status. -/
structure ApiResponse where
  success : Bool
  optimized : Option (List SubtitleItem)
  error : Option String
  status : Nat
deriving Repr, DecidableEq

/-- An error `Response` as built throughout the handler. -/
def jsonError (msg : String) (code : Nat) : ApiResponse :=
  { success := false, optimized := none, error := some msg, status := code }

/-- The request body after `request.json()` succeeded.  `apiKey := none`
models a missing or non-string `apiKey`; `subtitles := none` models a
missing or non-array `subtitles` property. -/
structure OptimizeRequest where
  apiKey : Option String
  subtitles : Option (List SubtitleItem)
deriving Repr, DecidableEq

def MAX_SUBTITLES_PER_REQUEST : Nat := 50

/-- The empty-content filter: `sub.content && sub.content.trim().length > 0`. -/
def hasContent (s : SubtitleItem) : Bool :=
  !(jsTrim s.content.data).isEmpty

/-- `optimized.sort((a, b) => a.index - b.index)`. -/
def sortByIndex (l : List SubtitleItem) : List SubtitleItem :=
  l.mergeSort (fun a b => a.index ≤ b.index)

/-- Model of JavaScript `String.prototype.toLowerCase`, character by
character (the messages involved are ASCII). -/
def jsToLower (s : String) : String := ⟨s.data.map Char.toLower⟩

/-- The outer `catch` of the `POST` handler: inspect the message for
authentication wording and answer 401 or 500. -/
def handleOuterError (msg : String) : ApiResponse :=
  let lower := jsToLower msg
  if strContains "api key" lower || strContains "authentication" lower then
    jsonError "Invalid API key. Please check your Gemini API key and try again." 401
  else
    jsonError ("Failed to optimize subtitles: " ++ msg) 500

/-- Embedding of the `POST` handler of `src/pages/api/aioptimize.ts`.
`body` is the outcome of `request.json()` (its `Except.error` case also
covers an exception from the `GoogleGenAI` constructor, the only other
statement outside the inner `try`); `callResult` is the outcome of the
external provider call, consumed only if control reaches the inner `try`. -/
def handlePOST (body : Except String OptimizeRequest)
    (callResult : Except String ProviderValue) : ApiResponse :=
  match body with
  | Except.error msg => handleOuterError msg
  | Except.ok req =>
    if req.apiKey = none ∨ req.apiKey = some "" then
      jsonError "API key is required" 400
    else
      match req.subtitles with
      | none => jsonError "Subtitles array is required and must not be empty" 400
      | some subs =>
        if subs.length = 0 then
          jsonError "Subtitles array is required and must not be empty" 400
        else if subs.length > MAX_SUBTITLES_PER_REQUEST then
          jsonError ("Too many subtitles in single request. Maximum " ++
            Nat.repr MAX_SUBTITLES_PER_REQUEST ++ " subtitles per request.") 400
        else
          let validSubtitles := subs.filter hasContent
          if validSubtitles.length = 0 then
            jsonError "No valid subtitles to optimize" 400
          else
            match optimizeSubtitles callResult with
            | Except.ok optimized =>
              { success := true, optimized := some (sortByIndex optimized),
                error := none, status := 200 }
            | Except.error msg => jsonError msg 500

/-! ## RateLimiter (upload endpoint `src/pages/api/upload.ts`)

The module-level `requestCounts` map and the admission check at the top of
the `POST` handler, with `Date.now()` passed in as the current time in
milliseconds. -/

structure RateEntry where
  count : Nat
  timestamp : Nat
deriving Repr, DecidableEq

def RATE_LIMIT_WINDOW : Nat := 60 * 1000

def MAX_REQUESTS_PER_WINDOW : Nat := 10

/-- `Map.get`. -/
def mapLookup (m : List (String × RateEntry)) (k : String) : Option RateEntry :=
  match m with
  | [] => none
  | (k2, v) :: rest => if k2 = k then some v else mapLookup rest k

/-- `Map.set` (replaces an existing entry for the key). -/
def mapSet (m : List (String × RateEntry)) (k : String) (v : RateEntry) :
    List (String × RateEntry) :=
  match m with
  | [] => [(k, v)]
  | (k2, v2) :: rest => if k2 = k then (k, v) :: rest else (k2, v2) :: mapSet rest k v

/-- The client key: `request.headers.get('x-forwarded-for') || 'unknown'`
(an absent header yields `null`, and both `null` and the empty string are
falsy). -/
def clientIPKey (header : Option String) : String :=
  match header with
  | none => "unknown"
  | some s => if s = "" then "unknown" else s

/-- The rate-limiting check of the upload `POST` handler: returns whether
the request is admitted, and the updated map.  A denial leaves the map
unchanged; `count++` mutates the stored object, leaving `timestamp` as it
was. -/
def rateLimitCheck (m : List (String × RateEntry)) (ip : String) (now : Nat) :
    Bool × List (String × RateEntry) :=
  match mapLookup m ip with
  | some e =>
    if now - e.timestamp < RATE_LIMIT_WINDOW then
      if e.count ≥ MAX_REQUESTS_PER_WINDOW then (false, m)
      else (true, mapSet m ip { count := e.count + 1, timestamp := e.timestamp })
    else (true, mapSet m ip { count := 1, timestamp := now })
  | none => (true, mapSet m ip { count := 1, timestamp := now })

/-- A sequence of requests for one client key at the given times, threading
the shared map; returns the admission verdicts in order and the final map. -/
def runCalls (m : List (String × RateEntry)) (ip : String) :
    List Nat → List Bool × List (String × RateEntry)
  | [] => ([], m)
  | t :: ts =>
    let r := rateLimitCheck m ip t
    let rest := runCalls r.2 ip ts
    (r.1 :: rest.1, rest.2)

/-! ## StreamingEmitter (`src/pages/api/stream-download.ts`)

The producer state of the chunked download stream.  `destClosed` models
whether the consumer has closed the destination; the source loop never
reads any consumer state (the `Readable`'s `read()` is empty, the return
value of `push` is ignored, and the continuation is an unconditional
`setTimeout`), which is visible below in that `processNextChunk` never
inspects `destClosed`. -/

structure EmitState where
  currentIndex : Nat
  serializerCalls : Nat
  chunksPushed : Nat
  endOfStream : Bool
  destClosed : Bool
deriving Repr, DecidableEq

def CHUNK_SIZE : Nat := 100

/-- One turn of the `processNextChunk` loop: push `null` once past the end,
otherwise serialize the next up-to-100 subtitles (one `formatSubtitle` call
per subtitle inside the chunk's `.map`), push the chunk, and advance. -/
def processNextChunk (subtitles : List String) (s : EmitState) : EmitState :=
  if s.currentIndex ≥ subtitles.length then
    { s with endOfStream := true }
  else
    let chunk := (subtitles.drop s.currentIndex).take CHUNK_SIZE
    { s with
      serializerCalls := s.serializerCalls + chunk.length
      chunksPushed := s.chunksPushed + 1
      currentIndex := s.currentIndex + CHUNK_SIZE }

/-- The consumer disconnecting: an event of the environment, not of the
producer loop. -/
def closeDest (s : EmitState) : EmitState := { s with destClosed := true }

/-- Initial producer state (`currentIndex = 0`). -/
def initEmit : EmitState :=
  { currentIndex := 0, serializerCalls := 0, chunksPushed := 0,
    endOfStream := false, destClosed := false }

/-- Run up to `k` scheduled turns of the loop (each `setTimeout` tick). -/
def runEmitter (subtitles : List String) : Nat → EmitState → EmitState
  | 0, s => s
  | k + 1, s =>
    if s.endOfStream then s
    else runEmitter subtitles k (processNextChunk subtitles s)

/-! ## Specification predicates (used to state the claims) -/

/-- The normalization contract of `parseSubtitleFile` on a grammar result
that is a (possibly empty after filtering) array of entries: parsing
succeeds, the produced indices are exactly `1, 2, ..., N` in entry order,
timing fields default to `0` when the entry lacks them, and `content` /
`text` are the sanitized entry texts (with the code's `content || text ||
''` fallback). -/
def ParseNormalized (entries : List RawEntry) : Prop :=
  ∃ cs, parseSubtitleFile (Except.ok (some entries)) = Except.ok cs ∧
    cs.map (fun c => c.index) = List.range' 1 (entries.filter keepEntry).length ∧
    ∀ i (hi : i < cs.length), ∃ hik : i < (entries.filter keepEntry).length,
      (cs.get ⟨i, hi⟩).index = i + 1 ∧
      (cs.get ⟨i, hi⟩).start = jsOrZero ((entries.filter keepEntry).get ⟨i, hik⟩).start ∧
      (cs.get ⟨i, hi⟩).stop = jsOrZero ((entries.filter keepEntry).get ⟨i, hik⟩).stop ∧
      (cs.get ⟨i, hi⟩).duration = jsOrZero ((entries.filter keepEntry).get ⟨i, hik⟩).duration ∧
      (cs.get ⟨i, hi⟩).content = sanitizeContent
        (jsOr ((entries.filter keepEntry).get ⟨i, hik⟩).content
          (jsOr ((entries.filter keepEntry).get ⟨i, hik⟩).text "")) ∧
      (cs.get ⟨i, hi⟩).text = sanitizeContent
        (jsOr ((entries.filter keepEntry).get ⟨i, hik⟩).text "")

/-- A parse outcome that failed with a message containing (case
folded) the `no valid subtitles found` wording. -/
def FailsNoValidSubtitles (r : Except String (List SubtitleCaption)) : Prop :=
  ∃ m, r = Except.error m ∧ strContains "no valid subtitles found" (jsToLower m) = true

/-! ## Theorems: ContentSanitizer -/

theorem stripTags_eq_self (l : List Char) (h : ∀ c ∈ l, c ≠ '<') : stripTags l = l := by
  induction l with
  | nil => rfl
  | cons c cs ih =>
    have hc : c ≠ '<' := h c (List.mem_cons_self c cs)
    show stripTagsAux false (c :: cs) = c :: cs
    rw [stripTagsAux.eq_def]
    simp only [if_neg hc]
    exact congrArg (c :: ·) (ih fun x hx => h x (List.mem_cons_of_mem c hx))

theorem dropWhile_idem (p : Char → Bool) (l : List Char) :
    (l.dropWhile p).dropWhile p = l.dropWhile p := by
  induction l with
  | nil => rfl
  | cons a t ih =>
    by_cases hp : p a = true
    · simp [List.dropWhile_cons, hp, ih]
    · simp [List.dropWhile_cons, hp]

theorem trimRight_idem (l : List Char) : trimRight (trimRight l) = trimRight l := by
  simp [trimRight, List.reverse_reverse, dropWhile_idem]

theorem trimLeft_trimRight (z : List Char) (h : trimLeft z = z) :
    trimLeft (trimRight z) = trimRight z := by
  cases hz : trimRight z with
  | nil => rfl
  | cons a t =>
    obtain ⟨s, hs⟩ := List.dropWhile_suffix (l := z.reverse) isJsSpace
    have hzeq : z = trimRight z ++ s.reverse := by
      have h2 := congrArg List.reverse hs
      rw [List.reverse_append, List.reverse_reverse] at h2
      exact h2.symm
    rw [hz] at hzeq
    have hpa : isJsSpace a = false := by
      by_contra hcon
      have hpa' : isJsSpace a = true := by
        revert hcon; cases isJsSpace a <;> simp
      rw [hzeq] at h
      rw [trimLeft, List.cons_append, List.dropWhile_cons_of_pos hpa'] at h
      have hlen := congrArg List.length h
      rw [List.length_cons] at hlen
      have hle := (List.dropWhile_sublist (p := isJsSpace) (l := t ++ s.reverse)).length_le
      omega
    rw [trimLeft, List.dropWhile_cons_of_neg (by simp [hpa])]

theorem jsTrim_idem (l : List Char) : jsTrim (jsTrim l) = jsTrim l := by
  unfold jsTrim
  have h1 : trimLeft (trimLeft l) = trimLeft l := dropWhile_idem isJsSpace l
  rw [trimLeft_trimRight _ h1, trimRight_idem]

theorem mem_of_mem_jsTrim {c : Char} {l : List Char} (h : c ∈ jsTrim l) : c ∈ l := by
  unfold jsTrim trimRight trimLeft at h
  rw [List.mem_reverse] at h
  have h2 := (List.dropWhile_sublist _).subset h
  rw [List.mem_reverse] at h2
  exact (List.dropWhile_sublist _).subset h2

theorem mem_sanitizeList_ne {c : Char} {l : List Char} (h : c ∈ sanitizeList l) :
    c ∈ stripTags l ∧ c ≠ '<' ∧ c ≠ '>' := by
  have h2 := mem_of_mem_jsTrim
    (l := ((stripTags l).filter (fun c => c != '<')).filter (fun c => c != '>')) h
  simp only [List.mem_filter, bne_iff_ne, ne_eq, decide_eq_true_eq] at h2
  tauto

theorem sanitizeList_idem (l : List Char) : sanitizeList (sanitizeList l) = sanitizeList l := by
  have hmem : ∀ c ∈ sanitizeList l, c ≠ '<' ∧ c ≠ '>' :=
    fun c hc => (mem_sanitizeList_ne hc).2
  have h1 : (sanitizeList l).filter (fun c => c != '<') = sanitizeList l :=
    List.filter_eq_self.mpr (fun c hc => by simp [(hmem c hc).1])
  have h2 : (sanitizeList l).filter (fun c => c != '>') = sanitizeList l :=
    List.filter_eq_self.mpr (fun c hc => by simp [(hmem c hc).2])
  conv_lhs => rw [sanitizeList]
  rw [stripTags_eq_self _ (fun c hc => (hmem c hc).1), h1, h2]
  exact jsTrim_idem _

/-- C1: for every string `s`, `sanitize (sanitize s) = sanitize s`, and
`sanitize s` contains no `<` and no `>` characters.  `sanitizeContent` is a
plain Lean function, hence pure and total on every input string. -/
theorem sanitizeContent_idempotent_no_angle (s : String) :
    sanitizeContent (sanitizeContent s) = sanitizeContent s ∧
      ∀ c ∈ (sanitizeContent s).data, c ≠ '<' ∧ c ≠ '>' :=
  ⟨congrArg String.mk (sanitizeList_idem s.data),
    fun _ hc => (mem_sanitizeList_ne hc).2⟩

/-! ## Theorems: SRT timecode formatter -/

theorem padStart_length (s : String) (n : Nat) (c : Char) :
    (padStart s n c).length = max n s.length := by
  show (List.replicate (n - s.length) c ++ s.data).length = max n s.length
  rw [List.length_append, List.length_replicate]
  have hd : s.length = s.data.length := rfl
  omega

set_option maxRecDepth 10000 in
theorem repr_length_le_two : ∀ x : Fin 60, (Nat.repr x.val).length ≤ 2 := by decide

set_option maxRecDepth 100000 in
theorem repr_length_le_three : ∀ x : Fin 1000, (Nat.repr x.val).length ≤ 3 := by decide

/-- C8: `formatTime 0 = "00:00:00,000"` and
`formatTime 3661001 = "01:01:01,001"`; for every `ms`, the output has the
shape `HH:MM:SS,mmm` where the hours field is zero-padded to at least two
digits and the minutes, seconds and milliseconds fields are exactly two,
two and three digits wide. -/
theorem formatTime_spec :
    formatTime 0 = "00:00:00,000" ∧ formatTime 3661001 = "01:01:01,001" ∧
    ∀ ms : Nat, ∃ fh fm fs fx : String,
      formatTime ms = fh ++ ":" ++ fm ++ ":" ++ fs ++ "," ++ fx ∧
      2 ≤ fh.length ∧ fm.length = 2 ∧ fs.length = 2 ∧ fx.length = 3 := by
  refine ⟨by decide, by decide, ?_⟩
  intro ms
  have hm : ms % 3600000 / 60000 < 60 := by omega
  have hs : ms % 60000 / 1000 < 60 := by omega
  have hx : ms % 1000 < 1000 := by omega
  refine ⟨pad (ms / 3600000), pad (ms % 3600000 / 60000), pad (ms % 60000 / 1000),
    padStart (Nat.repr (ms % 1000)) 3 '0', rfl, ?_, ?_, ?_, ?_⟩
  · rw [pad, padStart_length]
    exact Nat.le_max_left _ _
  · rw [pad, padStart_length]
    exact Nat.max_eq_left (repr_length_le_two ⟨_, hm⟩)
  · rw [pad, padStart_length]
    exact Nat.max_eq_left (repr_length_le_two ⟨_, hs⟩)
  · rw [padStart_length]
    exact Nat.max_eq_left (repr_length_le_three ⟨_, hx⟩)

/-! ## Theorems: FormatParser -/

/-- C2: whenever the grammar yields a non-empty entry array, parsing
succeeds and normalizes: indices are reassigned `1..N` in entry order
(input indices are ignored — `RawEntry` carries no trusted index at all),
absent timings default to `0`, and `content`/`text` are sanitized. -/
theorem parseSubtitleFile_normalizes (entries : List RawEntry) (hne : entries ≠ []) :
    ParseNormalized entries := by
  have hlen : entries.length ≠ 0 := fun h => hne (List.length_eq_zero.mp h)
  refine ⟨(entries.filter keepEntry).enum.map (fun p => mkCaption p.1 p.2), ?_, ?_, ?_⟩
  · simp only [parseSubtitleFile, if_neg hlen]
  · rw [List.map_map]
    have h1 : ((fun c : SubtitleCaption => c.index) ∘ fun p : Nat × RawEntry => mkCaption p.1 p.2)
        = fun p : Nat × RawEntry => p.1 + 1 := rfl
    have h2 : (fun p : Nat × RawEntry => p.1 + 1) = (fun n => n + 1) ∘ Prod.fst := rfl
    rw [h1, h2, ← List.map_map, List.enum_map_fst]
    simp [List.range'_eq_map_range, Nat.add_comm]
  · intro i hi
    rw [List.length_map, List.enum_length] at hi
    refine ⟨hi, ?_⟩
    have hget : ((entries.filter keepEntry).enum.map (fun p => mkCaption p.1 p.2)).get
        ⟨i, by simpa [List.length_map, List.enum_length] using hi⟩ =
        mkCaption i ((entries.filter keepEntry).get ⟨i, hi⟩) := by
      simp [List.get_eq_getElem, List.getElem_map, List.getElem_enum]
    rw [hget]
    exact ⟨rfl, rfl, rfl, rfl, rfl, rfl⟩

/-- C2 witness: a concrete one-entry grammar result, normalized. -/
theorem parseSubtitleFile_normalizes_witness :
    ParseNormalized [⟨none, some 5, some 7, none, some "a<b>c", none⟩] :=
  parseSubtitleFile_normalizes _ (by decide)

/-- C3 counterexample: a grammar result holding a single non-caption
entry yields zero usable captions, yet `parseSubtitleFile` returns a
successful empty document instead of failing — the emptiness check runs
before the `type` filter. -/
theorem parseSubtitleFile_meta_only_succeeds :
    parseSubtitleFile (Except.ok (some [⟨some "meta", none, none, none, none, none⟩])) =
      Except.ok [] := rfl

/-- C3 amended: the `no valid subtitles found` failure occurs exactly when
the grammar returns a non-array or an empty array; any non-empty entry
array — even one containing only non-caption entries — parses
successfully (possibly to an empty caption list). -/
theorem parseSubtitleFile_empty_error_amended :
    FailsNoValidSubtitles (parseSubtitleFile (Except.ok none)) ∧
    FailsNoValidSubtitles (parseSubtitleFile (Except.ok (some []))) ∧
    ∀ entries : List RawEntry, entries ≠ [] →
      ∃ cs, parseSubtitleFile (Except.ok (some entries)) = Except.ok cs := by
  refine ⟨⟨_, rfl, by decide⟩, ⟨_, rfl, by decide⟩, fun entries hne => ?_⟩
  have hlen : entries.length ≠ 0 := fun h => hne (List.length_eq_zero.mp h)
  exact ⟨(entries.filter keepEntry).enum.map (fun p => mkCaption p.1 p.2),
    by simp only [parseSubtitleFile, if_neg hlen]⟩

/-- C3 amended witness: the meta-only array from the counterexample indeed
parses successfully. -/
theorem parseSubtitleFile_empty_error_amended_witness :
    ∃ cs, parseSubtitleFile
      (Except.ok (some [⟨some "meta", none, none, none, none, none⟩])) = Except.ok cs :=
  parseSubtitleFile_empty_error_amended.2.2 _ (by decide)

/-! ## Theorems: OptimizationOrchestrator and the optimize endpoint -/

theorem validateItems_error (items : List RawItem) (h : ∃ i ∈ items, isValidItem i = false) :
    ∃ m, validateItems items = Except.error m := by
  induction items with
  | nil => simp at h
  | cons a rest ih =>
    by_cases hv : isValidItem a = true
    · obtain ⟨n, hn⟩ : ∃ n, a.index = JField.num n := by
        cases hidx : a.index with
        | num n => exact ⟨n, rfl⟩
        | str s => simp [isValidItem, hidx] at hv
        | other => simp [isValidItem, hidx] at hv
      obtain ⟨s, hs⟩ : ∃ s, a.content = JField.str s := by
        cases hcon : a.content with
        | str s => exact ⟨s, rfl⟩
        | num n2 => simp [isValidItem, hcon] at hv
        | other => simp [isValidItem, hcon] at hv
      have hrest : ∃ i ∈ rest, isValidItem i = false := by
        obtain ⟨i, hmem, hbad⟩ := h
        rcases List.mem_cons.mp hmem with h1 | h1
        · subst h1; rw [hv] at hbad; cases hbad
        · exact ⟨i, h1, hbad⟩
      obtain ⟨m, hm⟩ := ih hrest
      exact ⟨m, by simp [validateItems, hn, hs, hm, Except.map]⟩
    · refine ⟨"Invalid item format in response", ?_⟩
      cases hidx : a.index with
      | num n =>
        cases hcon : a.content with
        | str s => exact absurd (by simp [isValidItem, hidx, hcon]) hv
        | num n2 => simp [validateItems, hidx, hcon]
        | other => simp [validateItems, hidx, hcon]
      | str s => cases hcon : a.content <;> simp [validateItems, hidx, hcon]
      | other => cases hcon : a.content <;> simp [validateItems, hidx, hcon]

theorem handlePOST_error_response (body : Except String OptimizeRequest)
    (cr : Except String ProviderValue) (m : String)
    (hm : optimizeSubtitles cr = Except.error m) :
    (handlePOST body cr).success = false ∧ (handlePOST body cr).optimized = none := by
  cases body with
  | error msg =>
    show (handleOuterError msg).success = false ∧ (handleOuterError msg).optimized = none
    rw [handleOuterError]
    split_ifs <;> exact ⟨rfl, rfl⟩
  | ok req =>
    by_cases h1 : req.apiKey = none ∨ req.apiKey = some ""
    · simp [handlePOST, h1, jsonError]
    · cases hsub : req.subtitles with
      | none => simp [handlePOST, h1, hsub, jsonError]
      | some subs =>
        by_cases h2 : subs.length = 0
        · simp [handlePOST, h1, hsub, h2, jsonError]
        · by_cases h3 : subs.length > MAX_SUBTITLES_PER_REQUEST
          · simp [handlePOST, h1, hsub, h2, h3, jsonError]
          · by_cases h4 : (subs.filter hasContent).length = 0
            · simp [handlePOST, h1, hsub, h2, h3, h4, jsonError]
            · simp [handlePOST, h1, hsub, h2, h3, h4, hm, jsonError]

/-- C4: a provider response that is not an array, or in which some element
lacks a numeric `index` or a string `content`, makes the whole
`optimizeSubtitles` call fail, and the endpoint's response carries
`success: false` and no `optimized` array — no partial result. -/
theorem upstreamFormatError_aborts (body : Except String OptimizeRequest) (v : ProviderValue)
    (hbad : v = ProviderValue.notArray ∨
      ∃ items, v = ProviderValue.arr items ∧ ∃ i ∈ items, isValidItem i = false) :
    (∃ m, optimizeSubtitles (Except.ok v) = Except.error m) ∧
    (handlePOST body (Except.ok v)).success = false ∧
    (handlePOST body (Except.ok v)).optimized = none := by
  have hopt : ∃ m, optimizeSubtitles (Except.ok v) = Except.error m := by
    rcases hbad with h | ⟨items, hvv, hbaditem⟩
    · subst h; exact ⟨_, rfl⟩
    · subst hvv
      obtain ⟨m, hm⟩ := validateItems_error items hbaditem
      exact ⟨"Failed to optimize subtitles: " ++ m, by simp [optimizeSubtitles, hm]⟩
  obtain ⟨m, hm⟩ := hopt
  exact ⟨⟨m, hm⟩, handlePOST_error_response body _ m hm⟩

/-- C4 witness: a concrete array whose element has a string `index`. -/
theorem upstreamFormatError_aborts_witness :
    (∃ m, optimizeSubtitles
      (Except.ok (ProviderValue.arr [⟨JField.str "1", JField.str "x"⟩])) = Except.error m) ∧
    (handlePOST (Except.ok ⟨some "k", some [⟨1, "x"⟩]⟩)
      (Except.ok (ProviderValue.arr [⟨JField.str "1", JField.str "x"⟩]))).success = false ∧
    (handlePOST (Except.ok ⟨some "k", some [⟨1, "x"⟩]⟩)
      (Except.ok (ProviderValue.arr [⟨JField.str "1", JField.str "x"⟩]))).optimized = none :=
  upstreamFormatError_aborts _ _
    (Or.inr ⟨_, rfl, ⟨⟨JField.str "1", JField.str "x"⟩, by decide, by decide⟩⟩)

/-- C5: a request whose subtitle list has more than 50 items is rejected
with a `success: false` response whose message contains `Maximum 50`, and
the response does not depend on the provider call at all (the same
response results for every `callResult`). -/
theorem batchSizeError_cap (req : OptimizeRequest) (cr : Except String ProviderValue)
    (subs : List SubtitleItem)
    (hkey : ¬(req.apiKey = none ∨ req.apiKey = some ""))
    (hsubs : req.subtitles = some subs)
    (hlen : subs.length > MAX_SUBTITLES_PER_REQUEST) :
    handlePOST (Except.ok req) cr =
      jsonError "Too many subtitles in single request. Maximum 50 subtitles per request." 400 ∧
    strContains "Maximum 50"
      "Too many subtitles in single request. Maximum 50 subtitles per request." = true := by
  constructor
  · have h0 : ¬ subs.length = 0 := by
      have hmax : MAX_SUBTITLES_PER_REQUEST = 50 := rfl
      omega
    simp only [handlePOST, if_neg hkey, hsubs, if_neg h0, if_pos hlen]
    rfl
  · decide

/-- C5 witness: 51 items are rejected whatever the provider would answer. -/
theorem batchSizeError_cap_witness :
    (List.replicate 51 (⟨1, "a"⟩ : SubtitleItem)).length > MAX_SUBTITLES_PER_REQUEST ∧
    (handlePOST (Except.ok ⟨some "k", some (List.replicate 51 ⟨1, "a"⟩)⟩)
        (Except.ok (ProviderValue.arr [])) =
      jsonError "Too many subtitles in single request. Maximum 50 subtitles per request." 400 ∧
    strContains "Maximum 50"
      "Too many subtitles in single request. Maximum 50 subtitles per request." = true) :=
  ⟨by decide, batchSizeError_cap _ _ _ (by decide) rfl (by decide)⟩

/-- C6 counterexample: a failure whose message contains `api key` wording
but arises inside the external optimizer call is reported with status 500
and the generic wrapped message, not with 401 and the invalid-API-key
message as the claim states. -/
theorem upstreamAuthError_counterexample :
    strContains "api key"
      (jsToLower "API key not valid. Please pass a valid API key.") = true ∧
    (handlePOST (Except.ok ⟨some "k", some [⟨1, "hello"⟩]⟩)
      (Except.error "API key not valid. Please pass a valid API key.")).status = 500 ∧
    (handlePOST (Except.ok ⟨some "k", some [⟨1, "hello"⟩]⟩)
      (Except.error "API key not valid. Please pass a valid API key.")).error =
        some "Failed to optimize subtitles: API key not valid. Please pass a valid API key." := by
  exact ⟨by decide, by decide, by decide⟩

/-- C6 amended: authentication wording is answered with 401 and the
invalid-API-key message only for failures reaching the outer catch (body
parsing / client construction); a failure from the external optimizer call
is caught by the inner catch and reported with status 500 and the wrapped
message, regardless of wording. -/
theorem upstreamAuthError_amended (msg : String)
    (hauth : (strContains "api key" (jsToLower msg) ||
      strContains "authentication" (jsToLower msg)) = true) :
    (∀ cr, handlePOST (Except.error msg) cr =
      jsonError "Invalid API key. Please check your Gemini API key and try again." 401) ∧
    (∀ req subs, ¬(req.apiKey = none ∨ req.apiKey = some "") →
      req.subtitles = some subs → subs.length ≠ 0 →
      ¬ subs.length > MAX_SUBTITLES_PER_REQUEST → (subs.filter hasContent).length ≠ 0 →
      handlePOST (Except.ok req) (Except.error msg) =
        jsonError ("Failed to optimize subtitles: " ++ msg) 500) := by
  constructor
  · intro cr
    show handleOuterError msg = _
    simp [handleOuterError, hauth]
  · intro req subs h1 h2 h3 h4 h5
    simp only [handlePOST, if_neg h1, h2, if_neg h3, if_neg h4, if_neg h5]
    rfl

/-- C6 amended witness: a concrete auth-worded message answered 401 at the
outer catch and 500 when it comes from the optimizer call. -/
theorem upstreamAuthError_amended_witness :
    (strContains "api key" (jsToLower "authentication failed") ||
      strContains "authentication" (jsToLower "authentication failed")) = true ∧
    handlePOST (Except.error "authentication failed") (Except.ok (ProviderValue.arr [])) =
      jsonError "Invalid API key. Please check your Gemini API key and try again." 401 ∧
    handlePOST (Except.ok ⟨some "k", some [⟨1, "hi"⟩]⟩) (Except.error "authentication failed") =
      jsonError "Failed to optimize subtitles: authentication failed" 500 :=
  ⟨by decide,
    (upstreamAuthError_amended _ (by decide)).1 _,
    (upstreamAuthError_amended _ (by decide)).2 ⟨some "k", some [⟨1, "hi"⟩]⟩ [⟨1, "hi"⟩]
      (by decide) rfl (by decide) (by decide) (by decide)⟩

/-! ## Theorems: RateLimiter -/

theorem mapLookup_mapSet (m : List (String × RateEntry)) (k : String) (v : RateEntry) :
    mapLookup (mapSet m k v) k = some v := by
  induction m with
  | nil => simp [mapSet, mapLookup]
  | cons p rest ih =>
    obtain ⟨k2, v2⟩ := p
    by_cases h : k2 = k
    · simp [mapSet, mapLookup, h]
    · simp [mapSet, mapLookup, h, ih]

theorem mapSet_mapSet (m : List (String × RateEntry)) (k : String) (v v' : RateEntry) :
    mapSet (mapSet m k v) k v' = mapSet m k v' := by
  induction m with
  | nil => simp [mapSet]
  | cons p rest ih =>
    obtain ⟨k2, v2⟩ := p
    by_cases h : k2 = k
    · simp [mapSet, h]
    · simp [mapSet, h, ih]

theorem mapSet_lookup_self (m : List (String × RateEntry)) (k : String) (v : RateEntry)
    (h : mapLookup m k = some v) : mapSet m k v = m := by
  induction m with
  | nil => simp [mapLookup] at h
  | cons p rest ih =>
    obtain ⟨k2, v2⟩ := p
    by_cases hk : k2 = k
    · subst hk
      rw [mapLookup, if_pos rfl] at h
      rw [mapSet, if_pos rfl, Option.some_inj.mp h]
    · rw [mapLookup, if_neg hk] at h
      rw [mapSet, if_neg hk, ih h]

theorem runCalls_append (m : List (String × RateEntry)) (ip : String) (xs ys : List Nat) :
    runCalls m ip (xs ++ ys) =
      ((runCalls m ip xs).1 ++ (runCalls (runCalls m ip xs).2 ip ys).1,
        (runCalls (runCalls m ip xs).2 ip ys).2) := by
  induction xs generalizing m with
  | nil => simp [runCalls]
  | cons t xs ih => simp [runCalls, ih]

theorem runCalls_in_window (ip : String) (t1 : Nat) (ts : List Nat) :
    ∀ (m : List (String × RateEntry)) (c : Nat),
      mapLookup m ip = some ⟨c, t1⟩ →
      (∀ t ∈ ts, t - t1 < RATE_LIMIT_WINDOW) →
      c + ts.length ≤ MAX_REQUESTS_PER_WINDOW →
      (runCalls m ip ts).1 = List.replicate ts.length true ∧
      (runCalls m ip ts).2 = mapSet m ip ⟨c + ts.length, t1⟩ := by
  induction ts with
  | nil =>
    intro m c hl _ _
    exact ⟨rfl, (mapSet_lookup_self m ip ⟨c, t1⟩ hl).symm⟩
  | cons t ts ih =>
    intro m c hl hw hc
    have hwt : t - t1 < RATE_LIMIT_WINDOW := hw t (List.mem_cons_self _ _)
    have hcmax : ¬ c ≥ MAX_REQUESTS_PER_WINDOW := by
      rw [List.length_cons] at hc
      omega
    have hstep : rateLimitCheck m ip t = (true, mapSet m ip ⟨c + 1, t1⟩) := by
      simp [rateLimitCheck, hl, if_pos hwt, if_neg hcmax]
    have hlook : mapLookup (mapSet m ip ⟨c + 1, t1⟩) ip = some ⟨c + 1, t1⟩ :=
      mapLookup_mapSet m ip _
    have hrest := ih (mapSet m ip ⟨c + 1, t1⟩) (c + 1) hlook
      (fun x hx => hw x (List.mem_cons_of_mem _ hx))
      (by rw [List.length_cons] at hc; omega)
    have harith : c + 1 + ts.length = c + (ts.length + 1) := by omega
    refine ⟨?_, ?_⟩
    · simp [runCalls, hstep, hrest.1, List.replicate_succ]
    · simp [runCalls, hstep, hrest.2, mapSet_mapSet, harith]

theorem runCalls_eleven (ip : String) (t1 t11 : Nat) (ts : List Nat)
    (hlen : ts.length = 9)
    (hw : ∀ t ∈ ts, t - t1 < RATE_LIMIT_WINDOW)
    (hw11 : t11 - t1 < RATE_LIMIT_WINDOW) :
    (runCalls [] ip ((t1 :: ts) ++ [t11])).1 =
      true :: List.replicate 9 true ++ [false] ∧
    (runCalls [] ip ((t1 :: ts) ++ [t11])).2 = [(ip, ⟨10, t1⟩)] := by
  have hstep1 : rateLimitCheck [] ip t1 = (true, [(ip, ⟨1, t1⟩)]) := rfl
  have hinv := runCalls_in_window ip t1 ts [(ip, ⟨1, t1⟩)] 1
    (by simp [mapLookup]) hw
    (by rw [hlen]; decide)
  have hm2 : mapSet [(ip, ⟨1, t1⟩)] ip ⟨1 + ts.length, t1⟩ = [(ip, ⟨10, t1⟩)] := by
    rw [hlen]
    simp [mapSet]
  have hlook2 : mapLookup [(ip, ⟨10, t1⟩)] ip = some ⟨10, t1⟩ := by simp [mapLookup]
  have hten : (10 : Nat) ≥ MAX_REQUESTS_PER_WINDOW := by decide
  have hstep11 : rateLimitCheck [(ip, ⟨10, t1⟩)] ip t11 = (false, [(ip, ⟨10, t1⟩)]) := by
    simp [rateLimitCheck, hlook2, if_pos hw11, if_pos hten]
  rw [List.cons_append]
  simp only [runCalls, hstep1]
  rw [runCalls_append, hinv.1, hinv.2, hm2]
  simp only [runCalls, hstep11, hlen]
  simp

/-- C7: starting from an empty state, eleven requests for the same client
inside one window are admitted for calls 1–10 and denied for call 11; a
twelfth call made once the window has elapsed (`now - windowStart ≥ 60s`)
is admitted and the stored entry is reset to `count = 1` at the new time. -/
theorem rateLimiter_window_scenario (ip : String) (t1 t11 t12 : Nat) (ts : List Nat)
    (hlen : ts.length = 9)
    (hw : ∀ t ∈ ts, t - t1 < RATE_LIMIT_WINDOW)
    (hw11 : t11 - t1 < RATE_LIMIT_WINDOW)
    (h12 : t12 - t1 ≥ RATE_LIMIT_WINDOW) :
    (runCalls [] ip (((t1 :: ts) ++ [t11]) ++ [t12])).1 =
      (true :: List.replicate 9 true ++ [false]) ++ [true] ∧
    (runCalls [] ip (((t1 :: ts) ++ [t11]) ++ [t12])).2 = [(ip, ⟨1, t12⟩)] := by
  have h1 := runCalls_eleven ip t1 t11 ts hlen hw hw11
  have hlook2 : mapLookup [(ip, ⟨10, t1⟩)] ip = some ⟨10, t1⟩ := by simp [mapLookup]
  have hnw : ¬ t12 - t1 < RATE_LIMIT_WINDOW := by omega
  have hstep12 : rateLimitCheck [(ip, ⟨10, t1⟩)] ip t12 = (true, [(ip, ⟨1, t12⟩)]) := by
    simp [rateLimitCheck, hlook2, if_neg hnw, mapSet]
  rw [runCalls_append, h1.1, h1.2]
  simp only [runCalls, hstep12]
  simp

/-- C7 witness: a concrete run with all eleven calls at time `0` and the
twelfth at `60000`. -/
theorem rateLimiter_window_scenario_witness :
    (runCalls [] "1.2.3.4" (((0 :: List.replicate 9 0) ++ [0]) ++ [60000])).1 =
      (true :: List.replicate 9 true ++ [false]) ++ [true] ∧
    (runCalls [] "1.2.3.4" (((0 :: List.replicate 9 0) ++ [0]) ++ [60000])).2 =
      [("1.2.3.4", ⟨1, 60000⟩)] :=
  rateLimiter_window_scenario "1.2.3.4" 0 0 60000 (List.replicate 9 0)
    (by decide) (by decide) (by decide) (by decide)

/-- C10: an upload request without an `x-forwarded-for` header is keyed by
the fixed string `unknown`, so all such requests share one counter and one
window: ten headerless admissions exhaust the quota and an eleventh
headerless request inside the window — whatever its actual origin — is
denied. -/
theorem rateLimiter_unknown_key_shared (t1 t11 : Nat) (ts : List Nat)
    (hlen : ts.length = 9)
    (hw : ∀ t ∈ ts, t - t1 < RATE_LIMIT_WINDOW)
    (hw11 : t11 - t1 < RATE_LIMIT_WINDOW) :
    clientIPKey none = "unknown" ∧
    (∀ header : Option String, header = none → clientIPKey header = "unknown") ∧
    (runCalls [] (clientIPKey none) ((t1 :: ts) ++ [t11])).1 =
      true :: List.replicate 9 true ++ [false] :=
  ⟨rfl, fun _ h => by rw [h]; rfl,
    (runCalls_eleven (clientIPKey none) t1 t11 ts hlen hw hw11).1⟩

/-- C10 witness: concrete headerless runs at times `0` and `5`. -/
theorem rateLimiter_unknown_key_shared_witness :
    clientIPKey none = "unknown" ∧
    (∀ header : Option String, header = none → clientIPKey header = "unknown") ∧
    (runCalls [] (clientIPKey none) ((0 :: List.replicate 9 0) ++ [5])).1 =
      true :: List.replicate 9 true ++ [false] :=
  rateLimiter_unknown_key_shared 0 5 (List.replicate 9 0)
    (by decide) (by decide) (by decide)

/-! ## Theorems: StreamingEmitter -/

set_option maxRecDepth 1000000 in
/-- C9 counterexample: with 401 subtitles (5 chunks of up to 100), the
consumer closes the destination right after chunk 2 (200 serializer calls
so far), yet the loop goes on to compute chunks 3–5: the serializer is
invoked 201 more times and all five chunks are pushed. -/
theorem streamDownload_disconnect_counterexample :
    (closeDest (processNextChunk (List.replicate 401 "s")
      (processNextChunk (List.replicate 401 "s") initEmit))).serializerCalls = 200 ∧
    (runEmitter (List.replicate 401 "s") 4
      (closeDest (processNextChunk (List.replicate 401 "s")
        (processNextChunk (List.replicate 401 "s") initEmit)))).serializerCalls = 401 ∧
    (runEmitter (List.replicate 401 "s") 4
      (closeDest (processNextChunk (List.replicate 401 "s")
        (processNextChunk (List.replicate 401 "s") initEmit)))).chunksPushed = 5 ∧
    (runEmitter (List.replicate 401 "s") 4
      (closeDest (processNextChunk (List.replicate 401 "s")
        (processNextChunk (List.replicate 401 "s") initEmit)))).destClosed = true := by
  exact ⟨by decide, by decide, by decide, by decide⟩

/-- C9 amended: the producer loop never consults the destination state, so
closing the destination commutes with every production step — production
continues unchanged after a disconnect instead of stopping at the next
yield point. -/
theorem streamDownload_ignores_disconnect (subs : List String) (s : EmitState) :
    processNextChunk subs (closeDest s) = closeDest (processNextChunk subs s) ∧
    ∀ k : Nat, runEmitter subs k (closeDest s) = closeDest (runEmitter subs k s) := by
  have hstep : ∀ st : EmitState,
      processNextChunk subs (closeDest st) = closeDest (processNextChunk subs st) := by
    intro st
    rw [processNextChunk, processNextChunk, closeDest]
    split_ifs <;> rfl
  refine ⟨hstep s, ?_⟩
  intro k
  induction k generalizing s with
  | zero => rfl
  | succ k ih =>
    rw [runEmitter, runEmitter]
    show (if (closeDest s).endOfStream then closeDest s
      else runEmitter subs k (processNextChunk subs (closeDest s))) = _
    have hc : (closeDest s).endOfStream = s.endOfStream := rfl
    by_cases h : s.endOfStream
    · rw [if_pos (hc.trans h), if_pos h]
    · rw [if_neg (by rw [hc]; exact h), if_neg h, hstep s, ih]
